import Mathlib

/-!
Verification of the code-mosaic visualizer (trace reader + placement engine).

The JavaScript source is shallowly embedded as follows:
* JS strings are `List Char`; `String.prototype.split` with a one-character
  separator is `splitOnChar`, `String.prototype.trim` is `jsTrim`.
* JS numbers appearing in the placement arithmetic are `ℚ` (idealised exact
  arithmetic for the closed-form placement formulas).
* `Math.cos` / `Math.sin` are abstract parameters `cos sin : ℚ → ℚ`: no claim
  depends on their values, only on how the code combines them.
* `Math.random()` is an explicit stream `g : ℕ → ℚ` of samples consumed in
  order; each `createBuilding` call consumes five samples (four in
  `createTrapezoidMesh`, one for the cosmetic rotation), so building `i`
  draws its height from `g (5*i)`.
* A JS array access `parts[k]` that may be out of range yields `undefined`,
  embedded as `Option` with `none` for `undefined`.
-/

/-- JS string: a sequence of characters. -/
abbrev JSStr := List Char

/-- JS `s.split(sep)` for a one-character separator: always returns at least
one piece, keeps empty pieces. -/
def splitOnChar (sep : Char) : List Char → List (List Char)
  | [] => [[]]
  | c :: cs =>
    let r := splitOnChar sep cs
    if c = sep then [] :: r
    else
      match r with
      | [] => [[c]]
      | h :: t => (c :: h) :: t

/-- JS `s.trim()`: strip leading and trailing whitespace. -/
def jsTrim (cs : List Char) : List Char :=
  ((cs.dropWhile Char.isWhitespace).reverse.dropWhile Char.isWhitespace).reverse

/-- A 3D point (`BABYLON.Vector3`) with exact coordinates. -/
structure Vec3 where
  x : ℚ
  y : ℚ
  z : ℚ
deriving DecidableEq

/-- Body of the loop in `CodeVisualizer.createSpiralPath` (src/visualizer.js:
115-123): point `i` at angle `i * 0.3`, radius `2 + i * 0.3`, height
`totalHeight - i * 0.5` with `totalHeight = (steps - 1) * 0.5`. -/
def spiralPoint (cos sin : ℚ → ℚ) (steps i : ℕ) : Vec3 :=
  let radius : ℚ := 2
  let radiusGrowth : ℚ := 3/10
  let heightPerStep : ℚ := 1/2
  let turnsPerStep : ℚ := 3/10
  let totalHeight : ℚ := ((steps : ℚ) - 1) * heightPerStep
  let angle : ℚ := (i : ℚ) * turnsPerStep
  let currentRadius : ℚ := radius + (i : ℚ) * radiusGrowth
  { x := cos angle * currentRadius
    y := totalHeight - (i : ℚ) * heightPerStep
    z := sin angle * currentRadius }

def createSpiralPath (cos sin : ℚ → ℚ) (steps : ℕ) : List Vec3 :=
  (List.range steps).map (spiralPoint cos sin steps)

lemma createSpiralPath_length (cos sin : ℚ → ℚ) (steps : ℕ) :
    (createSpiralPath cos sin steps).length = steps := by
  simp [createSpiralPath]

lemma createSpiralPath_get? (cos sin : ℚ → ℚ) (N i : ℕ) (h : i < N) :
    (createSpiralPath cos sin N).get? i =
      some { x := cos ((i : ℚ) * (3/10)) * (2 + (i : ℚ) * (3/10))
             y := ((N : ℚ) - 1) * (1/2) - (i : ℚ) * (1/2)
             z := sin ((i : ℚ) * (3/10)) * (2 + (i : ℚ) * (3/10)) } := by
  simp [createSpiralPath, List.getElem?_map, List.getElem?_range, h, spiralPoint]

/-- Claim C1: for every step count `N` and index `i < N`, the `i`-th spiral point
of `createSpiralPath(N)` is
`(cos(i*0.3) * (2 + i*0.3), (N-1)*0.5 - i*0.5, sin(i*0.3) * (2 + i*0.3))`:
angle `i * turnRate`, radius `baseRadius + i * radiusGrowth`,
`y = totalHeight - i * heightPerStep` with `turnRate = 0.3`, `baseRadius = 2`,
`radiusGrowth = 0.3`, `heightPerStep = 0.5`. -/
theorem spiral_point_formula (cos sin : ℚ → ℚ) (N i : ℕ) (h : i < N) :
    (createSpiralPath cos sin N).get? i =
      some { x := cos ((i : ℚ) * (3/10)) * (2 + (i : ℚ) * (3/10))
             y := ((N : ℚ) - 1) * (1/2) - (i : ℚ) * (1/2)
             z := sin ((i : ℚ) * (3/10)) * (2 + (i : ℚ) * (3/10)) } :=
  createSpiralPath_get? cos sin N i h

theorem spiral_point_formula_witness :
    (createSpiralPath id id 3).get? 1 =
      some { x := (1 * (3/10) : ℚ) * (2 + 1 * (3/10))
             y := ((3 : ℚ) - 1) * (1/2) - 1 * (1/2)
             z := (1 * (3/10) : ℚ) * (2 + 1 * (3/10)) } := by
  have h := spiral_point_formula id id 3 1 (by norm_num)
  simpa using h

/-- Claim C5: among the `N` spiral points of `createSpiralPath(N)` (for `N ≥ 1`),
`y` is strictly decreasing in the index, point `0` has the maximum `y` and
point `N-1` the minimum. -/
theorem spiral_y_strict_desc (cos sin : ℚ → ℚ) (N : ℕ) (hN : 1 ≤ N) :
    (∀ i j pi pj, i < j → j < N →
      (createSpiralPath cos sin N).get? i = some pi →
      (createSpiralPath cos sin N).get? j = some pj → pj.y < pi.y) ∧
    (∀ k pk p0 plast, k < N →
      (createSpiralPath cos sin N).get? k = some pk →
      (createSpiralPath cos sin N).get? 0 = some p0 →
      (createSpiralPath cos sin N).get? (N - 1) = some plast →
      pk.y ≤ p0.y ∧ plast.y ≤ pk.y) := by
  constructor
  · intro i j pi pj hij hjN hi hj
    rw [createSpiralPath_get? cos sin N i (hij.trans hjN)] at hi
    rw [createSpiralPath_get? cos sin N j hjN] at hj
    obtain rfl : pi = _ := (Option.some_injective _ hi).symm
    obtain rfl : pj = _ := (Option.some_injective _ hj).symm
    have hq : (i : ℚ) < (j : ℚ) := by exact_mod_cast hij
    simp only
    nlinarith
  · intro k pk p0 plast hkN hk h0 hlast
    rw [createSpiralPath_get? cos sin N k hkN] at hk
    rw [createSpiralPath_get? cos sin N 0 (by omega)] at h0
    rw [createSpiralPath_get? cos sin N (N - 1) (by omega)] at hlast
    obtain rfl : pk = _ := (Option.some_injective _ hk).symm
    obtain rfl : p0 = _ := (Option.some_injective _ h0).symm
    obtain rfl : plast = _ := (Option.some_injective _ hlast).symm
    have hq : (k : ℚ) ≤ ((N : ℚ) - 1) := by
      have : (k : ℚ) + 1 ≤ (N : ℚ) := by exact_mod_cast hkN
      linarith
    have hq0 : (0 : ℚ) ≤ (k : ℚ) := by positivity
    have hcast : ((N - 1 : ℕ) : ℚ) = (N : ℚ) - 1 := by
      have : (1 : ℕ) ≤ N := hN
      push_cast [this]
      ring
    constructor
    · simp only
      nlinarith
    · simp only [hcast]
      nlinarith

theorem spiral_y_strict_desc_witness :
    (Vec3.mk (69/100) 0 (69/100)).y < (Vec3.mk 0 (1/2) 0).y := by
  have hfst := (spiral_y_strict_desc id id 2 (by norm_num)).1 0 1
    (Vec3.mk 0 (1/2) 0) (Vec3.mk (69/100) 0 (69/100))
    (by norm_num) (by norm_num)
    (by rw [createSpiralPath_get? id id 2 0 (by norm_num)]; norm_num)
    (by rw [createSpiralPath_get? id id 2 1 (by norm_num)]; norm_num)
  exact hfst

/-- Value of a (possibly hexadecimal) digit character. -/
def hexVal? (c : Char) : Option ℕ :=
  if c.isDigit then some (c.toNat - 48)
  else if 'a' ≤ c ∧ c ≤ 'f' then some (c.toNat - 87)
  else if 'A' ≤ c ∧ c ≤ 'F' then some (c.toNat - 55)
  else none

/-- Is `c` a digit in the given radix? -/
def isRadixDigit (base : ℕ) (c : Char) : Bool :=
  match hexVal? c with
  | some v => decide (v < base)
  | none => false

/-- JS `parseInt(s)` (no radix argument): skip leading whitespace, optional
sign, optional `0x`/`0X` prefix selecting radix 16, then the longest prefix
of radix digits; no digits gives `NaN`, embedded as `none`. -/
def parseIntJS (s : JSStr) : Option Int :=
  let cs := s.dropWhile Char.isWhitespace
  let signAndRest : Int × JSStr :=
    match cs with
    | '-' :: rest => (-1, rest)
    | '+' :: rest => (1, rest)
    | _ => (1, cs)
  let baseAndRest : ℕ × JSStr :=
    match signAndRest.2 with
    | '0' :: 'x' :: rest => (16, rest)
    | '0' :: 'X' :: rest => (16, rest)
    | _ => (10, signAndRest.2)
  let ds := baseAndRest.2.takeWhile (isRadixDigit baseAndRest.1)
  if ds.isEmpty then none
  else some (signAndRest.1 *
    ((ds.foldl (fun acc c => acc * baseAndRest.1 + (hexVal? c).getD 0) 0 : ℕ) : Int))

/-- `parseInt(parts[k]) || 0` where `parts[k]` may be `undefined`:
`parseInt(undefined)` and `parseInt` of a digit-free string are `NaN`,
and `NaN || 0` is `0`. -/
def parseIntField (o : Option JSStr) : Int :=
  match o with
  | none => 0
  | some s =>
    match parseIntJS s with
    | none => 0
    | some v => v

/-- One parsed execution step (the record literal built in
`CodeParser.parse`). Fields that a short line leaves undefined are `none`. -/
structure Step where
  step : ℕ
  type : JSStr
  name : Option JSStr
  value : Option JSStr
  address : Option JSStr
  line : Int
  depth : Int
  raw : JSStr
deriving DecidableEq

/-- Body of the `lines.map((line, index) => ...)` callback in
`CodeParser.parse`. -/
def parseLine (index : ℕ) (line : JSStr) : Step :=
  let parts := splitOnChar '|' line
  { step := index
    type := parts.headD []
    name := parts.get? 1
    value := parts.get? 2
    address := parts.get? 3
    line := parseIntField (parts.get? 4)
    depth := parseIntField (parts.get? 5)
    raw := line }

/-- `CodeParser.parse(codeTrace)`: trim the whole text, split on newlines,
map each line with its index to a step record. -/
def parse (codeTrace : JSStr) : List Step :=
  ((splitOnChar '\n' (jsTrim codeTrace)).enum).map (fun p => parseLine p.1 p.2)

lemma parse_length (s : JSStr) :
    (parse s).length = (splitOnChar '\n' (jsTrim s)).length := by
  simp [parse]

lemma parse_get? (s : JSStr) (i : ℕ) :
    (parse s).get? i = ((splitOnChar '\n' (jsTrim s)).get? i).map (parseLine i) := by
  simp only [parse, List.get?_map, List.get?_enum]
  cases (splitOnChar '\n' (jsTrim s)).get? i <;> rfl

/-- **C3.** For input text with `N` lines (the pieces obtained by splitting the
trimmed text on newlines), `CodeParser.parse` produces exactly `N` ordered
`Step` records, and the `i`-th record's index field (`step`) equals `i`. -/
theorem parse_length_and_index (s : JSStr) :
    (parse s).length = (splitOnChar '\n' (jsTrim s)).length ∧
    ∀ i st, (parse s).get? i = some st → st.step = i := by
  refine ⟨parse_length s, ?_⟩
  intro i st h
  rw [parse_get? s i] at h
  obtain ⟨l, hl, hst⟩ := Option.map_eq_some'.mp h
  rw [← hst]
  rfl

theorem parse_length_and_index_witness :
    (parse ('A' :: '\n' :: 'B' :: [])).length = 2 ∧
    (Step.mk 1 ('B' :: []) none none none 0 0 ('B' :: [])).step = 1 := by
  have h := parse_length_and_index ('A' :: '\n' :: 'B' :: [])
  refine ⟨h.1.trans (by decide), ?_⟩
  exact h.2 1 (Step.mk 1 ('B' :: []) none none none 0 0 ('B' :: [])) (by decide)

lemma parseLine_raw (i : ℕ) (l : JSStr) : (parseLine i l).raw = l := rfl

lemma splitOnChar_ne_nil (sep : Char) (l : List Char) : splitOnChar sep l ≠ [] := by
  cases l with
  | nil => simp [splitOnChar]
  | cons c cs =>
    simp only [splitOnChar]
    split
    · simp
    · split <;> simp

/-- Claim C4 counterexample: on the one-field line `CALL`, the parsed step's
`name` is `undefined` (`none`), not the empty string: the claim that missing
string fields are the empty string fails. -/
theorem parse_missing_fields_cex :
    ((parse ('C' :: 'A' :: 'L' :: 'L' :: [])).get? 0).map Step.name ≠
      some (some []) := by decide

/-- Claim C4 amended: a parsed line with fewer than six pipe-delimited fields
yields a `Step` whose missing string fields (`name`, `value`, `address`) are
`undefined` (`none`), and whose missing numeric fields (`line`, `depth`)
are `0`. -/
theorem parse_missing_fields_default (s : JSStr) (i : ℕ) (st : Step)
    (h : (parse s).get? i = some st) :
    ((splitOnChar '|' st.raw).length ≤ 1 → st.name = none) ∧
    ((splitOnChar '|' st.raw).length ≤ 2 → st.value = none) ∧
    ((splitOnChar '|' st.raw).length ≤ 3 → st.address = none) ∧
    ((splitOnChar '|' st.raw).length ≤ 4 → st.line = 0) ∧
    ((splitOnChar '|' st.raw).length ≤ 5 → st.depth = 0) := by
  rw [parse_get? s i] at h
  obtain ⟨l, hl, hst⟩ := Option.map_eq_some'.mp h
  subst hst
  rw [parseLine_raw]
  refine ⟨?_, ?_, ?_, ?_, ?_⟩ <;>
    · intro hlen
      simp only [parseLine]
      rw [List.get?_eq_none.mpr (by omega)]
      try rfl

theorem parse_missing_fields_default_witness :
    (Step.mk 0 ('C' :: 'A' :: 'L' :: 'L' :: []) none none none 0 0
        ('C' :: 'A' :: 'L' :: 'L' :: [])).name = none ∧
    (Step.mk 0 ('C' :: 'A' :: 'L' :: 'L' :: []) none none none 0 0
        ('C' :: 'A' :: 'L' :: 'L' :: [])).depth = 0 := by
  have h := parse_missing_fields_default ('C' :: 'A' :: 'L' :: 'L' :: []) 0
    (Step.mk 0 ('C' :: 'A' :: 'L' :: 'L' :: []) none none none 0 0
      ('C' :: 'A' :: 'L' :: 'L' :: [])) (by decide)
  exact ⟨h.1 (by decide), h.2.2.2.2 (by decide)⟩

/-- The specification's reading of a "numeric string": an optional sign
followed by one or more decimal digits, covering the whole string.
(Second definition for the refinement comparison in C6; it follows the
spec's words, not the source.) -/
def numericStringSpec (s : JSStr) : Bool :=
  let cs := match s with
    | '-' :: r => r
    | '+' :: r => r
    | _ => s
  !cs.isEmpty && cs.all Char.isDigit

/-- Claim C6 counterexample: the string `12abc` is not a numeric string, yet on the line
`A|b|c|d|12abc|3` the parsed `line` field is `12`, not `0`: JS `parseInt`
takes the longest digit prefix instead of rejecting the field. -/
theorem parse_nonnumeric_zero_cex :
    numericStringSpec ('1' :: '2' :: 'a' :: 'b' :: 'c' :: []) = false ∧
    ((parse ('A' :: '|' :: 'b' :: '|' :: 'c' :: '|' :: 'd' :: '|' ::
        '1' :: '2' :: 'a' :: 'b' :: 'c' :: '|' :: '3' :: [])).get? 0).map
      Step.line = some 12 := by decide

/-- Claim C6 amended: every parsed step's `line` and `depth` fields are the
JS `parseInt(field) || 0` of pipe fields 4 and 5 of its line: a missing
field, or one in which `parseInt` finds no digits, gives `0`; otherwise the
value is the integer denoted by the longest radix-digit prefix (after
optional whitespace, sign and `0x`). -/
theorem parse_line_depth_parseInt (s : JSStr) (i : ℕ) (st : Step)
    (h : (parse s).get? i = some st) :
    st.line = parseIntField ((splitOnChar '|' st.raw).get? 4) ∧
    st.depth = parseIntField ((splitOnChar '|' st.raw).get? 5) ∧
    (∀ t, (splitOnChar '|' st.raw).get? 4 = some t → parseIntJS t = none →
      st.line = 0) ∧
    (∀ t v, (splitOnChar '|' st.raw).get? 4 = some t → parseIntJS t = some v →
      st.line = v) ∧
    (∀ t, (splitOnChar '|' st.raw).get? 5 = some t → parseIntJS t = none →
      st.depth = 0) ∧
    (∀ t v, (splitOnChar '|' st.raw).get? 5 = some t → parseIntJS t = some v →
      st.depth = v) := by
  rw [parse_get? s i] at h
  obtain ⟨l, hl, hst⟩ := Option.map_eq_some'.mp h
  subst hst
  rw [parseLine_raw]
  refine ⟨rfl, rfl, ?_, ?_, ?_, ?_⟩
  · intro t ht hnone
    simp only [parseLine, ht, parseIntField, hnone]
  · intro t v ht hsome
    simp only [parseLine, ht, parseIntField, hsome]
  · intro t ht hnone
    simp only [parseLine, ht, parseIntField, hnone]
  · intro t v ht hsome
    simp only [parseLine, ht, parseIntField, hsome]

theorem parse_line_depth_parseInt_witness :
    (Step.mk 0 ('A' :: []) (some ('b' :: [])) (some ('c' :: []))
        (some ('d' :: [])) 0 7
        ('A' :: '|' :: 'b' :: '|' :: 'c' :: '|' :: 'd' :: '|' ::
         'x' :: 'y' :: 'z' :: '|' :: '7' :: [])).line = 0 ∧
    (Step.mk 0 ('A' :: []) (some ('b' :: [])) (some ('c' :: []))
        (some ('d' :: [])) 0 7
        ('A' :: '|' :: 'b' :: '|' :: 'c' :: '|' :: 'd' :: '|' ::
         'x' :: 'y' :: 'z' :: '|' :: '7' :: [])).depth = 7 := by
  have h := parse_line_depth_parseInt
    ('A' :: '|' :: 'b' :: '|' :: 'c' :: '|' :: 'd' :: '|' ::
     'x' :: 'y' :: 'z' :: '|' :: '7' :: []) 0
    (Step.mk 0 ('A' :: []) (some ('b' :: [])) (some ('c' :: []))
      (some ('d' :: [])) 0 7
      ('A' :: '|' :: 'b' :: '|' :: 'c' :: '|' :: 'd' :: '|' ::
       'x' :: 'y' :: 'z' :: '|' :: '7' :: [])) (by decide)
  exact ⟨h.2.2.1 ('x' :: 'y' :: 'z' :: []) (by decide) (by decide),
         h.2.2.2.2.2 ('7' :: []) 7 (by decide) (by decide)⟩

/-- A stained-glass color `{r, g, b, a}`. -/
structure Color where
  r : ℚ
  g : ℚ
  b : ℚ
  a : ℚ
deriving DecidableEq

/-- The `DEFAULT` (crystal clear) color. -/
def defaultColor : Color := { r := 7/10, g := 7/10, b := 7/10, a := 8/10 }

/-- The `colors` table of `CodeParser.getColorForType`. -/
def colorsTable : List (JSStr × Color) :=
  [("CALL".data,   { r := 8/10, g := 2/10, b := 2/10, a := 8/10 }),
   ("DECL".data,   { r := 2/10, g := 4/10, b := 8/10, a := 8/10 }),
   ("LOOP".data,   { r := 6/10, g := 2/10, b := 8/10, a := 8/10 }),
   ("ASSIGN".data, { r := 2/10, g := 8/10, b := 4/10, a := 8/10 }),
   ("RETURN".data, { r := 9/10, g := 7/10, b := 1/10, a := 8/10 }),
   ("IF".data,     { r := 9/10, g := 4/10, b := 2/10, a := 8/10 }),
   ("ELSE".data,   { r := 4/10, g := 7/10, b := 9/10, a := 8/10 }),
   ("DEFAULT".data, defaultColor)]

/-- Own-key reading of `colors[type] || colors['DEFAULT']` in
`CodeParser.getColorForType`: the color the source produces whenever `type`
is an own key of the literal or misses the prototype chain as well. For an
`Object.prototype` property name the source instead returns the inherited
member; the full property-read semantics is `getColorForTypeJS` below. -/
def getColorForType (type : JSStr) : Color :=
  (colorsTable.lookup type).getD defaultColor

/-- One entry of the `profiles` table in `CodeVisualizer.getShapeProfile`. -/
structure ShapeProfile where
  heightMin : ℚ
  heightMax : ℚ
  topWidthMin : ℚ
  topWidthMax : ℚ
  bottomWidthMin : ℚ
  bottomWidthMax : ℚ
  depthMin : ℚ
  depthMax : ℚ
  shape : JSStr
deriving DecidableEq

/-- The `DEFAULT` shape profile. -/
def defaultProfile : ShapeProfile :=
  { heightMin := 6/5, heightMax := 2
    topWidthMin := 2/5, topWidthMax := 3/5
    bottomWidthMin := 4/5, bottomWidthMax := 6/5
    depthMin := 3/5, depthMax := 9/10
    shape := "trapezoidSlim".data }

/-- The `profiles` table of `CodeVisualizer.getShapeProfile`
(src/visualizer.js:158-218). -/
def profilesTable : List (JSStr × ShapeProfile) :=
  [("CALL".data,
    { heightMin := 4, heightMax := 11/2
      topWidthMin := 3/5, topWidthMax := 4/5
      bottomWidthMin := 9/5, bottomWidthMax := 12/5
      depthMin := 7/5, depthMax := 9/5
      shape := "trapezoidTower".data }),
   ("RETURN".data,
    { heightMin := 3, heightMax := 4
      topWidthMin := 4/5, topWidthMax := 1
      bottomWidthMin := 6/5, bottomWidthMax := 8/5
      depthMin := 1, depthMax := 7/5
      shape := "invertedTrapezoid".data }),
   ("LOOP".data,
    { heightMin := 5/2, heightMax := 7/2
      topWidthMin := 1/2, topWidthMax := 7/10
      bottomWidthMin := 7/5, bottomWidthMax := 9/5
      depthMin := 6/5, depthMax := 3/2
      shape := "trapezoidWide".data }),
   ("IF".data,
    { heightMin := 2, heightMax := 3
      topWidthMin := 2/5, topWidthMax := 3/5
      bottomWidthMin := 1, bottomWidthMax := 7/5
      depthMin := 4/5, depthMax := 6/5
      shape := "trapezoidAngled".data }),
   ("ELSE".data,
    { heightMin := 9/5, heightMax := 14/5
      topWidthMin := 2/5, topWidthMax := 3/5
      bottomWidthMin := 1, bottomWidthMax := 7/5
      depthMin := 4/5, depthMax := 6/5
      shape := "trapezoidAngled".data }),
   ("DECL".data,
    { heightMin := 3/2, heightMax := 5/2
      topWidthMin := 1/2, topWidthMax := 7/10
      bottomWidthMin := 4/5, bottomWidthMax := 6/5
      depthMin := 7/10, depthMax := 1
      shape := "trapezoidSlim".data }),
   ("ASSIGN".data,
    { heightMin := 1, heightMax := 9/5
      topWidthMin := 3/10, topWidthMax := 1/2
      bottomWidthMin := 3/5, bottomWidthMax := 1
      depthMin := 1/2, depthMax := 4/5
      shape := "trapezoidSmall".data }),
   ("DEFAULT".data, defaultProfile)]

/-- Own-key reading of `profiles[type] || profiles['DEFAULT']` in
`CodeVisualizer.getShapeProfile`: the profile the source produces whenever
`type` is an own key of the literal or misses the prototype chain as well
(the mesh pipeline below uses it; for `Object.prototype` property names the
source instead returns the inherited member and every downstream dimension
is `NaN` — see `getShapeProfileJS` and `buildingHeightJS`). -/
def getShapeProfile (type : JSStr) : ShapeProfile :=
  (profilesTable.lookup type).getD defaultProfile

/-- The seven recognised operation type tags. -/
def knownTypes : List JSStr :=
  ["CALL".data, "DECL".data, "LOOP".data, "ASSIGN".data,
   "RETURN".data, "IF".data, "ELSE".data]

/-- Result of the JS property read `table[type] || table['DEFAULT']` on an
object literal: either an entry of the literal itself (an own key, or the
DEFAULT fallback when the read misses entirely), or a truthy member
inherited from `Object.prototype` — for those the `||` fallback never fires
and the result is not a table entry at all. -/
inductive JSLookup (α : Type) where
  | value : α → JSLookup α
  | protoMember : JSStr → JSLookup α
deriving DecidableEq

/-- The property names every object literal inherits from
`Object.prototype`: reading one of them on the `colors`/`profiles` literals
yields a truthy function (or, for `__proto__`, an object). -/
def objectProtoKeys : List JSStr :=
  ["constructor".data, "hasOwnProperty".data, "isPrototypeOf".data,
   "propertyIsEnumerable".data, "toLocaleString".data, "toString".data,
   "valueOf".data, "__proto__".data, "__defineGetter__".data,
   "__defineSetter__".data, "__lookupGetter__".data, "__lookupSetter__".data]

/-- `CodeParser.getColorForType(type)` with the full JS property-read
semantics of `colors[type] || colors['DEFAULT']`, prototype chain
included. -/
def getColorForTypeJS (type : JSStr) : JSLookup Color :=
  match colorsTable.lookup type with
  | some c => JSLookup.value c
  | none =>
    if type ∈ objectProtoKeys then JSLookup.protoMember type
    else JSLookup.value defaultColor

/-- `CodeVisualizer.getShapeProfile(type)` with the full JS property-read
semantics of `profiles[type] || profiles['DEFAULT']`, prototype chain
included. -/
def getShapeProfileJS (type : JSStr) : JSLookup ShapeProfile :=
  match profilesTable.lookup type with
  | some p => JSLookup.value p
  | none =>
    if type ∈ objectProtoKeys then JSLookup.protoMember type
    else JSLookup.value defaultProfile

lemma getShapeProfileJS_eq_value (t : JSStr) (hp : t ∉ objectProtoKeys) :
    getShapeProfileJS t = JSLookup.value (getShapeProfile t) := by
  unfold getShapeProfileJS getShapeProfile
  cases hlook : profilesTable.lookup t <;> simp [hlook, hp]

lemma getColorForTypeJS_eq_value (t : JSStr) (hp : t ∉ objectProtoKeys) :
    getColorForTypeJS t = JSLookup.value (getColorForType t) := by
  unfold getColorForTypeJS getColorForType
  cases hlook : colorsTable.lookup t <;> simp [hlook, hp]

/-- Claim C7 counterexample: `toString` is not one of the seven known tags,
yet the source does not resolve it to the DEFAULT color or profile: the
property read returns the inherited, truthy `Object.prototype.toString`, so
the `||` fallback never fires. -/
theorem unknown_type_defaults_cex :
    "toString".data ∉ knownTypes ∧
    getColorForTypeJS "toString".data =
      JSLookup.protoMember "toString".data ∧
    getColorForTypeJS "toString".data ≠ JSLookup.value defaultColor ∧
    getShapeProfileJS "toString".data ≠ JSLookup.value defaultProfile := by
  refine ⟨by decide, rfl, ?_, ?_⟩ <;> intro hcontra
  · rw [show getColorForTypeJS "toString".data =
        JSLookup.protoMember "toString".data from rfl] at hcontra
    exact JSLookup.noConfusion hcontra
  · rw [show getShapeProfileJS "toString".data =
        JSLookup.protoMember "toString".data from rfl] at hcontra
    exact JSLookup.noConfusion hcontra

/-- Claim C7 amended: every type string that is neither one of CALL, DECL,
LOOP, ASSIGN, RETURN, IF, ELSE nor an `Object.prototype` property name
resolves to the DEFAULT shape profile and the DEFAULT color, without
throwing and without the step being dropped; an `Object.prototype` property
name instead returns the inherited member, bypassing the DEFAULT
fallback. -/
theorem unknown_type_defaults_nonproto (t : JSStr) (h : t ∉ knownTypes)
    (hp : t ∉ objectProtoKeys) :
    getShapeProfileJS t = JSLookup.value defaultProfile ∧
    getColorForTypeJS t = JSLookup.value defaultColor := by
  simp only [knownTypes, List.mem_cons, List.not_mem_nil, or_false, not_or] at h
  obtain ⟨h1, h2, h3, h4, h5, h6, h7⟩ := h
  have e1 : (t == "CALL".data) = false := beq_eq_false_iff_ne.mpr h1
  have e2 : (t == "DECL".data) = false := beq_eq_false_iff_ne.mpr h2
  have e3 : (t == "LOOP".data) = false := beq_eq_false_iff_ne.mpr h3
  have e4 : (t == "ASSIGN".data) = false := beq_eq_false_iff_ne.mpr h4
  have e5 : (t == "RETURN".data) = false := beq_eq_false_iff_ne.mpr h5
  have e6 : (t == "IF".data) = false := beq_eq_false_iff_ne.mpr h6
  have e7 : (t == "ELSE".data) = false := beq_eq_false_iff_ne.mpr h7
  constructor
  · rw [getShapeProfileJS_eq_value t hp]
    simp only [getShapeProfile, profilesTable, List.lookup,
      e1, e2, e3, e4, e5, e6, e7]
    rcases hd : t == "DEFAULT".data <;> simp [hd]
  · rw [getColorForTypeJS_eq_value t hp]
    simp only [getColorForType, colorsTable, List.lookup,
      e1, e2, e3, e4, e5, e6, e7]
    rcases hd : t == "DEFAULT".data <;> simp [hd]

theorem unknown_type_defaults_nonproto_witness :
    getShapeProfileJS ('F' :: 'O' :: 'O' :: []) =
      JSLookup.value defaultProfile ∧
    getColorForTypeJS ('F' :: 'O' :: 'O' :: []) =
      JSLookup.value defaultColor :=
  unknown_type_defaults_nonproto ('F' :: 'O' :: 'O' :: [])
    (by decide) (by decide)

/-- `CodeVisualizer._rand(min, max)` with the `Math.random()` sample `r`
made explicit: `min + r * (max - min)`. -/
def _rand (r lo hi : ℚ) : ℚ := lo + r * (hi - lo)

/-- The dimensions produced by `createTrapezoidMesh` (`_trapHeight` is `h`). -/
structure TrapMesh where
  h : ℚ
  topW : ℚ
  botW : ℚ
  topD : ℚ
  botD : ℚ
deriving DecidableEq

/-- `CodeVisualizer.createTrapezoidMesh(name, profile)`
(src/visualizer.js:233-247), consuming the four random samples
`g k, ..., g (k+3)`: draw height, top width, bottom width and depth from the
profile's ranges, then swap top and bottom for the inverted trapezoid. -/
def createTrapezoidMesh (g : ℕ → ℚ) (k : ℕ) (profile : ShapeProfile) : TrapMesh :=
  let h := _rand (g k) profile.heightMin profile.heightMax
  let tw := _rand (g (k+1)) profile.topWidthMin profile.topWidthMax
  let bw := _rand (g (k+2)) profile.bottomWidthMin profile.bottomWidthMax
  let d := _rand (g (k+3)) profile.depthMin profile.depthMax
  if profile.shape = "invertedTrapezoid".data then
    { h := h, topW := bw, botW := tw, topD := d, botD := d * (tw / bw) }
  else
    { h := h, topW := tw, botW := bw, topD := d * (tw / bw), botD := d }

/-- The placement-relevant state of one created building mesh. -/
structure Building where
  posX : ℚ
  posY : ℚ
  posZ : ℚ
  height : ℚ
  type : JSStr
deriving DecidableEq

/-- `CodeVisualizer.createBuilding(step, position, color, type, stepData,
parentY)` (src/visualizer.js:327-339, 412-413): build the trapezoid mesh at
the spiral position, offset upward by `parentY * 0.3` when the step is not a
CALL and a parent CALL height is known; returns the building and its
generated height (the function's return value). `k` is the position of this
call's first `Math.random()` sample in the stream. -/
def createBuilding (g : ℕ → ℚ) (k : ℕ) (position : Vec3) (type : JSStr)
    (parentY : ℚ) : Building × ℚ :=
  let profile := getShapeProfile type
  let mesh := createTrapezoidMesh g k profile
  let posY := if type ≠ "CALL".data ∧ parentY > 0
              then position.y + parentY * (3/10) else position.y
  ({ posX := position.x, posY := posY, posZ := position.z,
     height := mesh.h, type := type }, mesh.h)

/-- The `trace.forEach` loop of `CodeVisualizer.visualize`
(src/visualizer.js:442-455): create one building per step at its spiral
point, tracking `currentCallHeight` (reset to the built height whenever the
step is a CALL). The staggered `setTimeout` callbacks fire in index order,
so the loop is modelled sequentially. -/
def visualizeSteps (g : ℕ → ℚ) : List Step → List Vec3 → ℕ → ℚ → List Building
  | [], _, _, _ => []
  | _ :: _, [], _, _ => []
  | st :: rest, p :: ps, idx, callH =>
    let bh := createBuilding g (5 * idx) p st.type callH
    let callH2 := if st.type = "CALL".data then bh.2 else callH
    bh.1 :: visualizeSteps g rest ps (idx + 1) callH2

/-- `CodeVisualizer.visualize(codeTrace)` (src/visualizer.js:419-455): parse
the trace, create one spiral point per step, then create the buildings.
Returns (trace, spiral points, buildings). -/
def visualize (g : ℕ → ℚ) (cos sin : ℚ → ℚ) (codeTrace : JSStr) :
    List Step × List Vec3 × List Building :=
  let trace := parse codeTrace
  let pathPoints := createSpiralPath cos sin trace.length
  (trace, pathPoints, visualizeSteps g trace pathPoints 0 0)

/-- The generated height of the building for step `idx` of type `type`:
the `_rand` draw of `createTrapezoidMesh` at sample `g (5*idx)`. -/
def stepHeight (g : ℕ → ℚ) (idx : ℕ) (type : JSStr) : ℚ :=
  _rand (g (5 * idx)) (getShapeProfile type).heightMin (getShapeProfile type).heightMax

/-- The tracked `currentCallHeight` after processing `i` further steps of
`trace`, starting at loop index `idx` with tracked value `callH`. -/
def trackedFrom (g : ℕ → ℚ) : List Step → ℕ → ℚ → ℕ → ℚ
  | _, _, callH, 0 => callH
  | [], _, callH, _ + 1 => callH
  | st :: rest, idx, callH, i + 1 =>
    trackedFrom g rest (idx + 1)
      (if st.type = "CALL".data then stepHeight g idx st.type else callH) i

/-- The tracked `currentCallHeight` just before step `i` of a full
`visualize` run (initial value `0`). -/
def trackedHeight (g : ℕ → ℚ) (trace : List Step) (i : ℕ) : ℚ :=
  trackedFrom g trace 0 0 i

lemma createTrapezoidMesh_h (g : ℕ → ℚ) (k : ℕ) (profile : ShapeProfile) :
    (createTrapezoidMesh g k profile).h =
      _rand (g k) profile.heightMin profile.heightMax := by
  simp only [createTrapezoidMesh]
  split <;> rfl

lemma createBuilding_snd (g : ℕ → ℚ) (k : ℕ) (p : Vec3) (t : JSStr) (c : ℚ) :
    (createBuilding g k p t c).2 =
      _rand (g k) (getShapeProfile t).heightMin (getShapeProfile t).heightMax := by
  simp only [createBuilding]
  exact createTrapezoidMesh_h g k (getShapeProfile t)

lemma createBuilding_fst_height (g : ℕ → ℚ) (k : ℕ) (p : Vec3) (t : JSStr) (c : ℚ) :
    (createBuilding g k p t c).1.height =
      _rand (g k) (getShapeProfile t).heightMin (getShapeProfile t).heightMax := by
  simp only [createBuilding]
  exact createTrapezoidMesh_h g k (getShapeProfile t)

lemma visualizeSteps_get? (g : ℕ → ℚ) :
    ∀ (trace : List Step) (pts : List Vec3) (idx : ℕ) (callH : ℚ) (i : ℕ)
      (st : Step) (p : Vec3),
      trace.get? i = some st → pts.get? i = some p →
      (visualizeSteps g trace pts idx callH).get? i =
        some (createBuilding g (5 * (idx + i)) p st.type
          (trackedFrom g trace idx callH i)).1 := by
  intro trace
  induction trace with
  | nil =>
    intro pts idx callH i st p hst hp
    simp at hst
  | cons st0 rest ih =>
    intro pts idx callH i st p hst hp
    cases pts with
    | nil => simp at hp
    | cons p0 ps =>
      cases i with
      | zero =>
        simp only [List.get?] at hst hp
        obtain rfl : st0 = st := by injection hst
        obtain rfl : p0 = p := by injection hp
        simp [visualizeSteps, trackedFrom]
      | succ i =>
        simp only [List.get?] at hst hp
        simp only [visualizeSteps, List.get?]
        rw [ih ps (idx + 1) _ i st p hst hp]
        have harith : idx + 1 + i = idx + (i + 1) := by omega
        rw [createBuilding_snd]
        simp only [trackedFrom, stepHeight, harith]

lemma visualizeSteps_length (g : ℕ → ℚ) :
    ∀ (trace : List Step) (pts : List Vec3) (idx : ℕ) (callH : ℚ),
      (visualizeSteps g trace pts idx callH).length =
        min trace.length pts.length := by
  intro trace
  induction trace with
  | nil => intro pts idx callH; simp [visualizeSteps]
  | cons st0 rest ih =>
    intro pts idx callH
    cases pts with
    | nil => simp [visualizeSteps]
    | cons p0 ps =>
      simp only [visualizeSteps, List.length_cons, ih]
      omega

lemma trackedFrom_succ (g : ℕ → ℚ) :
    ∀ (trace : List Step) (idx : ℕ) (callH : ℚ) (i : ℕ) (st : Step),
      trace.get? i = some st →
      trackedFrom g trace idx callH (i + 1) =
        (if st.type = "CALL".data then stepHeight g (idx + i) st.type
         else trackedFrom g trace idx callH i) := by
  intro trace
  induction trace with
  | nil => intro idx callH i st hst; simp at hst
  | cons st0 rest ih =>
    intro idx callH i st hst
    cases i with
    | zero =>
      obtain rfl : st0 = st := by injection hst
      simp [trackedFrom]
    | succ i =>
      simp only [List.get?] at hst
      have h1 : trackedFrom g (st0 :: rest) idx callH (i + 1 + 1) =
          trackedFrom g rest (idx + 1)
            (if st0.type = "CALL".data then stepHeight g idx st0.type else callH)
            (i + 1) := rfl
      rw [h1, ih (idx + 1) _ i st hst]
      have harith : idx + 1 + i = idx + (i + 1) := by omega
      rw [harith]
      rfl

/-- Claim C2: in the `visualize` loop, the building for step `i` sits at its
spiral point's `y` plus the tracked parent CALL height times `0.3` when the
step is not a CALL and a positive tracked height is known, and at the spiral
point's `y` (offset zero) otherwise; a CALL step resets the tracked height
to that CALL building's own generated height, and a non-CALL step leaves it
unchanged. -/
theorem building_vertical_offset (g : ℕ → ℚ) (trace : List Step)
    (pts : List Vec3) (i : ℕ) (st : Step) (p : Vec3)
    (hst : trace.get? i = some st) (hp : pts.get? i = some p) :
    ∃ b : Building,
      (visualizeSteps g trace pts 0 0).get? i = some b ∧
      b.posY = p.y + (if st.type ≠ "CALL".data ∧ trackedHeight g trace i > 0
                      then trackedHeight g trace i * (3/10) else 0) ∧
      b.height = stepHeight g i st.type ∧
      (st.type = "CALL".data → trackedHeight g trace (i + 1) = b.height) ∧
      (st.type ≠ "CALL".data →
        trackedHeight g trace (i + 1) = trackedHeight g trace i) := by
  refine ⟨(createBuilding g (5 * (0 + i)) p st.type
      (trackedFrom g trace 0 0 i)).1,
    visualizeSteps_get? g trace pts 0 0 i st p hst hp, ?_, ?_, ?_, ?_⟩
  · by_cases hc : st.type ≠ "CALL".data ∧ trackedHeight g trace i > 0
    · simp only [createBuilding, trackedHeight] at hc ⊢
      rw [if_pos hc, if_pos hc]
    · simp only [createBuilding, trackedHeight] at hc ⊢
      rw [if_neg hc, if_neg hc, add_zero]
  · rw [createBuilding_fst_height]
    simp only [stepHeight, Nat.zero_add]
  · intro hCall
    rw [createBuilding_fst_height]
    unfold trackedHeight
    rw [trackedFrom_succ g trace 0 0 i st hst, if_pos hCall]
    simp only [stepHeight, Nat.zero_add]
  · intro hNot
    unfold trackedHeight
    rw [trackedFrom_succ g trace 0 0 i st hst, if_neg hNot]

theorem building_vertical_offset_witness :
    ∃ b : Building,
      (visualizeSteps (fun _ => 0)
          [Step.mk 0 "CALL".data none none none 0 0 "CALL".data,
           Step.mk 1 "DECL".data none none none 0 0 "DECL".data]
          [Vec3.mk 0 1 0, Vec3.mk 2 0 3] 0 0).get? 1 = some b ∧
      b.posY = (Vec3.mk 2 0 3).y +
        (if (Step.mk 1 "DECL".data none none none 0 0 "DECL".data).type ≠
              "CALL".data ∧
            trackedHeight (fun _ => 0)
              [Step.mk 0 "CALL".data none none none 0 0 "CALL".data,
               Step.mk 1 "DECL".data none none none 0 0 "DECL".data] 1 > 0
         then trackedHeight (fun _ => 0)
              [Step.mk 0 "CALL".data none none none 0 0 "CALL".data,
               Step.mk 1 "DECL".data none none none 0 0 "DECL".data] 1 * (3/10)
         else 0) ∧
      b.height = stepHeight (fun _ => 0) 1
        (Step.mk 1 "DECL".data none none none 0 0 "DECL".data).type ∧
      ((Step.mk 1 "DECL".data none none none 0 0 "DECL".data).type =
          "CALL".data →
        trackedHeight (fun _ => 0)
          [Step.mk 0 "CALL".data none none none 0 0 "CALL".data,
           Step.mk 1 "DECL".data none none none 0 0 "DECL".data] 2 = b.height) ∧
      ((Step.mk 1 "DECL".data none none none 0 0 "DECL".data).type ≠
          "CALL".data →
        trackedHeight (fun _ => 0)
          [Step.mk 0 "CALL".data none none none 0 0 "CALL".data,
           Step.mk 1 "DECL".data none none none 0 0 "DECL".data] 2 =
        trackedHeight (fun _ => 0)
          [Step.mk 0 "CALL".data none none none 0 0 "CALL".data,
           Step.mk 1 "DECL".data none none none 0 0 "DECL".data] 1) :=
  building_vertical_offset (fun _ => 0)
    [Step.mk 0 "CALL".data none none none 0 0 "CALL".data,
     Step.mk 1 "DECL".data none none none 0 0 "DECL".data]
    [Vec3.mk 0 1 0, Vec3.mk 2 0 3] 1
    (Step.mk 1 "DECL".data none none none 0 0 "DECL".data)
    (Vec3.mk 2 0 3) rfl rfl

/-- Claim C8: after `visualize`: the spiral point list and the parsed trace have
the same length, the building list too; the step stored at trace position `i`
has index field `i` (so `Step.step` is the unique stable key into both
sequences), and the building at position `i` is the one created for step `i`
at spiral point `i` (same type, placed at that point's `x`/`z`). -/
theorem visualize_coindexed (g : ℕ → ℚ) (cos sin : ℚ → ℚ) (input : JSStr) :
    (visualize g cos sin input).2.1.length =
      (visualize g cos sin input).1.length ∧
    (visualize g cos sin input).2.2.length =
      (visualize g cos sin input).1.length ∧
    (∀ i st, (visualize g cos sin input).1.get? i = some st → st.step = i) ∧
    (∀ i st p, (visualize g cos sin input).1.get? i = some st →
      (visualize g cos sin input).2.1.get? i = some p →
      ∃ b, (visualize g cos sin input).2.2.get? i = some b ∧
        b.type = st.type ∧ b.posX = p.x ∧ b.posZ = p.z) := by
  have h1 : (visualize g cos sin input).1 = parse input := rfl
  have h2 : (visualize g cos sin input).2.1 =
      createSpiralPath cos sin (parse input).length := rfl
  have h3 : (visualize g cos sin input).2.2 =
      visualizeSteps g (parse input)
        (createSpiralPath cos sin (parse input).length) 0 0 := rfl
  refine ⟨?_, ?_, ?_, ?_⟩
  · rw [h1, h2, createSpiralPath_length]
  · rw [h1, h3, visualizeSteps_length, createSpiralPath_length, min_self]
  · intro i st hst
    rw [h1, parse_get?] at hst
    obtain ⟨l, hl, hpl⟩ := Option.map_eq_some'.mp hst
    rw [← hpl]
    rfl
  · intro i st p hst hp
    rw [h1] at hst
    rw [h2] at hp
    refine ⟨(createBuilding g (5 * (0 + i)) p st.type
        (trackedFrom g (parse input) 0 0 i)).1, ?_, rfl, rfl, rfl⟩
    rw [h3]
    exact visualizeSteps_get? g (parse input) _ 0 0 i st p hst hp

theorem visualize_coindexed_witness :
    (visualize (fun _ => 0) id id "CALL|main".data).2.1.length =
      (visualize (fun _ => 0) id id "CALL|main".data).1.length ∧
    ∃ b, (visualize (fun _ => 0) id id "CALL|main".data).2.2.get? 0 = some b ∧
      b.type = (Step.mk 0 "CALL".data (some "main".data) none none 0 0
        "CALL|main".data).type ∧
      b.posX = (spiralPoint id id 1 0).x ∧ b.posZ = (spiralPoint id id 1 0).z := by
  have h := visualize_coindexed (fun _ => 0) id id "CALL|main".data
  exact ⟨h.1, h.2.2.2 0
    (Step.mk 0 "CALL".data (some "main".data) none none 0 0 "CALL|main".data)
    (spiralPoint id id 1 0) (by decide) rfl⟩

lemma profile_ranges (t : JSStr) :
    1 ≤ (getShapeProfile t).heightMin ∧
    (getShapeProfile t).heightMin ≤ (getShapeProfile t).heightMax ∧
    0 < (getShapeProfile t).topWidthMin ∧
    (getShapeProfile t).topWidthMin ≤ (getShapeProfile t).topWidthMax ∧
    0 < (getShapeProfile t).bottomWidthMin ∧
    (getShapeProfile t).bottomWidthMin ≤ (getShapeProfile t).bottomWidthMax ∧
    0 < (getShapeProfile t).depthMin ∧
    (getShapeProfile t).depthMin ≤ (getShapeProfile t).depthMax := by
  simp only [getShapeProfile, profilesTable, List.lookup]
  repeat' split
  all_goals norm_num [defaultProfile, Option.getD]

lemma stepHeight_ge_one (g : ℕ → ℚ) (hg : ∀ k, 0 ≤ g k) (idx : ℕ) (t : JSStr) :
    1 ≤ stepHeight g idx t := by
  have h := profile_ranges t
  unfold stepHeight _rand
  nlinarith [hg (5 * idx), h.1, h.2.1]

lemma trackedFrom_pos_iff (g : ℕ → ℚ) (hg : ∀ k, 0 ≤ g k) :
    ∀ (trace : List Step) (idx : ℕ) (callH : ℚ) (i : ℕ), 0 ≤ callH →
      (0 < trackedFrom g trace idx callH i ↔
        0 < callH ∨
        ∃ j st, j < i ∧ trace.get? j = some st ∧ st.type = "CALL".data) := by
  intro trace
  induction trace with
  | nil =>
    intro idx callH i h0
    cases i <;> simp [trackedFrom]
  | cons st0 rest ih =>
    intro idx callH i h0
    cases i with
    | zero => simp [trackedFrom]
    | succ i =>
      have hstep : trackedFrom g (st0 :: rest) idx callH (i + 1) =
          trackedFrom g rest (idx + 1)
            (if st0.type = "CALL".data then stepHeight g idx st0.type else callH)
            i := rfl
      rw [hstep]
      by_cases hc : st0.type = "CALL".data
      · rw [if_pos hc]
        have hpos : 0 < stepHeight g idx st0.type := by
          linarith [stepHeight_ge_one g hg idx st0.type]
        rw [ih (idx + 1) _ i (le_of_lt hpos)]
        constructor
        · intro _
          right
          exact ⟨0, st0, by omega, rfl, hc⟩
        · intro _
          left
          exact hpos
      · rw [if_neg hc]
        rw [ih (idx + 1) callH i h0]
        constructor
        · rintro (h | ⟨j, st, hj, hget, htype⟩)
          · left; exact h
          · right; exact ⟨j + 1, st, by omega, hget, htype⟩
        · rintro (h | ⟨j, st, hj, hget, htype⟩)
          · left; exact h
          · cases j with
            | zero =>
              injection hget with he
              rw [← he] at htype
              exact absurd htype hc
            | succ j =>
              right
              exact ⟨j, st, by omega, hget, htype⟩

/-- The `_trapHeight` the source computes for an arbitrary type string: for
a table entry the `_rand` draw of `createTrapezoidMesh`; for a type naming
an inherited `Object.prototype` member the "profile" is a function with no
range fields, `this._rand(undefined, undefined)` is `NaN`, and the height
is `NaN`, embedded as `none`. -/
def buildingHeightJS (g : ℕ → ℚ) (k : ℕ) (type : JSStr) : Option ℚ :=
  match getShapeProfileJS type with
  | JSLookup.value p => some (createTrapezoidMesh g k p).h
  | JSLookup.protoMember _ => none

/-- Claim C9 counterexample: for the type string `constructor` the source's
`profiles[type]` read returns the inherited `Object.prototype.constructor`,
which is truthy but no profile with positive ranges, and the generated
building height is `NaN` (`none`), not a value at least `1`. -/
theorem shape_profile_positive_cex :
    getShapeProfileJS "constructor".data =
      JSLookup.protoMember "constructor".data ∧
    buildingHeightJS (fun _ => 0) 0 "constructor".data = none := by
  constructor <;> rfl

/-- Claim C9 amended: for every type string that is not an
`Object.prototype` property name, the profile the source returns satisfies
`0 < min ≤ max` in each of its four dimension ranges, so with
`Math.random()` samples `≥ 0` the building height `createTrapezoidMesh`
generates for such a type is defined and at least `1` (the least
`heightMin`, from ASSIGN); and the tracked parent CALL height is strictly
positive exactly when at least one CALL step (an own key of the table) has
already been processed. -/
theorem shape_profile_positive_nonproto (g : ℕ → ℚ) (hg : ∀ k, 0 ≤ g k)
    (t : JSStr) (hp : t ∉ objectProtoKeys) (k : ℕ) (trace : List Step)
    (i : ℕ) :
    getShapeProfileJS t = JSLookup.value (getShapeProfile t) ∧
    (0 < (getShapeProfile t).heightMin ∧
      (getShapeProfile t).heightMin ≤ (getShapeProfile t).heightMax) ∧
    (0 < (getShapeProfile t).topWidthMin ∧
      (getShapeProfile t).topWidthMin ≤ (getShapeProfile t).topWidthMax) ∧
    (0 < (getShapeProfile t).bottomWidthMin ∧
      (getShapeProfile t).bottomWidthMin ≤ (getShapeProfile t).bottomWidthMax) ∧
    (0 < (getShapeProfile t).depthMin ∧
      (getShapeProfile t).depthMin ≤ (getShapeProfile t).depthMax) ∧
    buildingHeightJS g k t =
      some ((createTrapezoidMesh g k (getShapeProfile t)).h) ∧
    1 ≤ (createTrapezoidMesh g k (getShapeProfile t)).h ∧
    (0 < trackedHeight g trace i ↔
      ∃ j st, j < i ∧ trace.get? j = some st ∧ st.type = "CALL".data) := by
  have h := profile_ranges t
  have hv := getShapeProfileJS_eq_value t hp
  refine ⟨hv, ⟨by linarith [h.1], h.2.1⟩, ⟨h.2.2.1, h.2.2.2.1⟩,
    ⟨h.2.2.2.2.1, h.2.2.2.2.2.1⟩, ⟨h.2.2.2.2.2.2.1, h.2.2.2.2.2.2.2⟩,
    ?_, ?_, ?_⟩
  · unfold buildingHeightJS
    rw [hv]
  · rw [createTrapezoidMesh_h]
    unfold _rand
    nlinarith [hg k, h.1, h.2.1]
  · unfold trackedHeight
    rw [trackedFrom_pos_iff g hg trace 0 0 i le_rfl]
    simp

theorem shape_profile_positive_nonproto_witness :
    getShapeProfileJS "CALL".data =
      JSLookup.value (getShapeProfile "CALL".data) ∧
    (0 < (getShapeProfile "CALL".data).heightMin ∧
      (getShapeProfile "CALL".data).heightMin ≤
        (getShapeProfile "CALL".data).heightMax) ∧
    (0 < (getShapeProfile "CALL".data).topWidthMin ∧
      (getShapeProfile "CALL".data).topWidthMin ≤
        (getShapeProfile "CALL".data).topWidthMax) ∧
    (0 < (getShapeProfile "CALL".data).bottomWidthMin ∧
      (getShapeProfile "CALL".data).bottomWidthMin ≤
        (getShapeProfile "CALL".data).bottomWidthMax) ∧
    (0 < (getShapeProfile "CALL".data).depthMin ∧
      (getShapeProfile "CALL".data).depthMin ≤
        (getShapeProfile "CALL".data).depthMax) ∧
    buildingHeightJS (fun _ => 0) 0 "CALL".data =
      some ((createTrapezoidMesh (fun _ => 0) 0 (getShapeProfile "CALL".data)).h) ∧
    1 ≤ (createTrapezoidMesh (fun _ => 0) 0 (getShapeProfile "CALL".data)).h ∧
    (0 < trackedHeight (fun _ => 0)
        [Step.mk 0 "CALL".data none none none 0 0 "CALL".data] 1 ↔
      ∃ j st, j < 1 ∧
        [Step.mk 0 "CALL".data none none none 0 0 "CALL".data].get? j =
          some st ∧ st.type = "CALL".data) :=
  shape_profile_positive_nonproto (fun _ => 0) (fun _ => le_refl 0)
    "CALL".data (by decide) 0
    [Step.mk 0 "CALL".data none none none 0 0 "CALL".data] 1

/-- Claim C10: the spiral path is deterministic: it does not depend on the
random stream, so two `visualize` runs on the same input produce identical
spiral point lists; by contrast the generated building sizes do depend on
the stream (witnessed on the one-line trace `CALL`). -/
theorem spiral_path_deterministic (g1 g2 : ℕ → ℚ) (cos sin : ℚ → ℚ)
    (input : JSStr) :
    (visualize g1 cos sin input).2.1 = (visualize g2 cos sin input).2.1 ∧
    (visualize (fun _ => 0) cos sin "CALL".data).2.2.map Building.height ≠
      (visualize (fun _ => (1:ℚ)/2) cos sin "CALL".data).2.2.map
        Building.height := by
  refine ⟨rfl, ?_⟩
  have hA : (visualize (fun _ => 0) cos sin "CALL".data).2.2.map
      Building.height = [4 + 0 * (11/2 - 4)] := rfl
  have hB : (visualize (fun _ => (1:ℚ)/2) cos sin "CALL".data).2.2.map
      Building.height = [4 + (1/2) * (11/2 - 4)] := rfl
  rw [hA, hB]
  norm_num
